import Mathlib

/-!
Verification of the fetch-resilience layer of the universal-scraper
repository, against a shallow embedding of its TypeScript sources.

Embedded components:
* `src/lib/types.ts` — `isBlocked` (the ProtectionDetector) and the
  retrying `fetchHTML` (the raw-HTTP fetcher tier).
* `src/lib/playwrightFetcher.ts` — cookie normalization and the
  page/context/browser lifecycle of `fetchWithPlaywright`.
* the second `fetchWithPlaywright` variant (lib/playwrightFetcher.ts,
  strategy-chain version) — the render/HTTP tier orchestration.
* `providers/annas.ts` — `normalizeUrlCandidate` and
  `AnnasProvider.scrape`, the mirror fallback chain.
* `src/lib/parsers/annasSearch.ts` — the dedupe/filter tail of
  `parseAnnasSearch`.

External platform facilities (the network, the WHATWG URL parser, the
browser, the DOM extraction done by cheerio) are modelled as explicit
oracle arguments; every internal decision is translated from the source.
Bodies of text are modelled as `List Char`; `String` is used for URLs and
error messages, where only equality and concatenation matter.
-/

namespace Scraper

/-! ## String containment, modelling JavaScript `String.prototype.includes` -/

/-- Boolean list-prefix test (JS strings compared character by character). -/
def isPrefixOfB : List Char → List Char → Bool
  | [], _ => true
  | _ :: _, [] => false
  | a :: as, b :: bs => a == b && isPrefixOfB as bs

/-- `includesSub hay sub` models `hay.includes(sub)`: `sub` occurs as a
contiguous substring of `hay`. -/
def includesSub : List Char → List Char → Bool
  | [], sub => isPrefixOfB sub []
  | hay@(_ :: rest), sub => isPrefixOfB sub hay || includesSub rest sub

/-- JS `String.prototype.toLowerCase`, per character. -/
def lowerStr (s : List Char) : List Char := s.map Char.toLower

/-! ## ProtectionDetector — `isBlocked`, src/lib/types.ts lines 35–45 -/

/-- The fixed signature substrings checked by `isBlocked`, in source order:
`"ddos-guard"`, `"access denied"`, `"captcha"`, `"verify you are human"`,
`"just a moment"`. -/
def BLOCK_SIGNATURES : List (List Char) :=
  [ "ddos-guard".toList
  , "access denied".toList
  , "captcha".toList
  , "verify you are human".toList
  , "just a moment".toList ]

/-- Minimum body length below which `isBlocked` fires (`html.length < 2000`). -/
def MIN_BODY_LENGTH : Nat := 2000

/-- `isBlocked(html)` from src/lib/types.ts: true when the lowercased body
contains any signature, or the body is shorter than 2000 characters. The
source writes the five `includes` checks as a literal disjunction; the
`List.any` below ranges over exactly those five signatures in order. -/
def isBlocked (html : List Char) : Bool :=
  BLOCK_SIGNATURES.any (fun sig => includesSub (lowerStr html) sig)
    || decide (html.length < MIN_BODY_LENGTH)

/-! ## Raw-HTTP fetcher — `fetchHTML`, src/lib/types.ts lines 64–117 -/

/-- Outcome of one physical network round trip, as delivered to the try
body: either an HTTP response (any status — the source sets
`validateStatus: () => true`, so axios surfaces all statuses), or a
transport-level error thrown by axios (timeout, connection reset). -/
inductive NetResult where
  | resp (status : Nat) (body : List Char)
  | netError (msg : String)

/-- JS `String.prototype.trim` (strip leading and trailing whitespace). -/
def jsTrim (s : List Char) : List Char :=
  ((s.dropWhile Char.isWhitespace).reverse.dropWhile Char.isWhitespace).reverse

/-- The body of one loop iteration of `fetchHTML`: inspects the network
result and either returns the html or throws, in source order —
`HTTP <status>` when `status >= 400`, `Empty response body` when the body
is empty or whitespace-only (`!html || html.trim().length === 0`),
`Protection page detected` when `isBlocked(html)`. -/
def attemptOutcome : NetResult → Except String (List Char)
  | .netError m => .error m
  | .resp status body =>
    if 400 ≤ status then .error ("HTTP " ++ toString status)
    else if (jsTrim body).length = 0 then .error "Empty response body"
    else if isBlocked body then .error "Protection page detected"
    else .ok body

/-- `MAX_RETRIES = 3` in src/lib/types.ts. -/
def MAX_RETRIES : Nat := 3

/-- Backoff before the next raw-HTTP try: `sleep(500 * attempt)` after a
failed attempt (1-based attempt index). -/
def httpBackoff (attempt : Nat) : Nat := 500 * attempt

/-- Trace of a `fetchHTML` run: the result, how many physical network
tries were consumed, and the backoff delays slept (in order). -/
structure HttpTrace where
  result : Except String (List Char)
  callCount : Nat
  delays : List Nat
deriving Repr

/-- Final error message: `fetchHTML failed after 3 attempts. Last error: …`
(`lastError?.message || lastError`; the loop always records an error before
exhausting, so the `none` branch is unreachable in runs of `fetchHTML`). -/
def httpFailMsg (lastErr : Option String) : String :=
  "fetchHTML failed after " ++ toString MAX_RETRIES ++ " attempts. Last error: "
    ++ (match lastErr with | some m => m | none => "undefined")

/-- The retry loop of `fetchHTML`. `net` maps the 1-based attempt index to
that attempt's network outcome; `fuel` counts remaining iterations, so the
current attempt index is `MAX_RETRIES - fuel + 1`. On failure the source
sleeps `500 * attempt` and continues; when the loop ends it throws the
aggregated message. -/
def fetchHTMLGo (net : Nat → NetResult) : Nat → Option String → HttpTrace
  | 0, lastErr => ⟨.error (httpFailMsg lastErr), 0, []⟩
  | fuel + 1, _lastErr =>
    match attemptOutcome (net (MAX_RETRIES - fuel)) with
    | .ok html => ⟨.ok html, 1, []⟩
    | .error e =>
      ⟨(fetchHTMLGo net fuel (some e)).result,
       (fetchHTMLGo net fuel (some e)).callCount + 1,
       httpBackoff (MAX_RETRIES - fuel) :: (fetchHTMLGo net fuel (some e)).delays⟩

/-- `fetchHTML` from src/lib/types.ts, over a network oracle. (The missing
URL guard `if (!url) throw` is outside the retry logic; the URL itself does
not influence the control flow modelled here.) -/
def fetchHTML (net : Nat → NetResult) : HttpTrace :=
  fetchHTMLGo net MAX_RETRIES none

/-! ## FallbackChainWalker — `AnnasProvider.scrape`, providers/annas.ts

The URL parser (`new URL`) is a platform facility: its result on the
caller's URL is passed in as `parsed : Option ParsedUrl` (`none` models the
constructor throwing). The network (`fetchWithPlaywright`, and the
dynamically imported `fetchHTML` of lib/fetcher.ts used by the last-resort
state) is the oracle `net : Nat → Except String String`, indexed by the
number of physical fetch calls made so far. -/

/-- The fields of a WHATWG-parsed URL that `AnnasProvider.scrape` reads. -/
structure ParsedUrl where
  protocol : String
  host : String
  pathname : String
  search : String
  hash : String
  origin : String
deriving Repr, DecidableEq

/-- `MIRROR_ORIGINS` from providers/annas.ts, in configured order. -/
def MIRROR_ORIGINS : List String :=
  ["https://annas-archive.li", "https://annas-archive.org", "https://annas-archive.se"]

/-- `normalizeUrlCandidate(original, candidateOrigin)`: when the original
parses, re-base its path + search + hash onto the candidate origin (each
configured mirror origin is already an origin string, so
`new URL(candidateOrigin).origin` is `candidateOrigin` itself); when it
does not parse, fall back to prefixing the candidate origin onto the raw
string. -/
def normalizeUrlCandidate (parsed : Option ParsedUrl) (original : String)
    (candidateOrigin : Option String) : String :=
  match parsed with
  | some u =>
    match candidateOrigin with
    | none => u.origin ++ u.pathname ++ u.search ++ u.hash
    | some m => m ++ u.pathname ++ u.search ++ u.hash
  | none =>
    match candidateOrigin with
    | some m => m ++ original
    | none => original

/-- One entry of the `attempts` audit trail (the `source`/`returnedType`
diagnostic tags of the source are not referenced by any claim and are
omitted). -/
structure FetchAttempt where
  attemptUrl : String
  success : Bool
  error : Option String
deriving Repr, DecidableEq

/-- The mutable locals of one `scrape` run, threaded explicitly, plus two
instrumentation fields: `calls` counts physical fetch calls (it indexes the
oracle) and `delays` records the backoff sleeps in order. -/
structure WalkState where
  attempts : List FetchAttempt
  lastErrMsg : Option String
  fetchResult : Option String
  finalAttemptUrl : Option String
  usedFallbackOrigin : Option String
  calls : Nat
  delays : List Nat
deriving Repr

/-- Record a backoff sleep. -/
def WalkState.addDelay (s : WalkState) (d : Nat) : WalkState :=
  { s with delays := s.delays ++ [d] }

/-- Backoff before retry `i` of the Original state:
`setTimeout(res, 400 * i)`. -/
def annasBackoff (i : Nat) : Nat := 400 * i

/-- The `tryFetch` helper of `scrape`: one fetch call, one appended trail
entry; on success it sets `fetchResult`, `finalAttemptUrl` and the fallback
tag, on failure it records the error message. Returns the new state and the
call's success (the source's `ok`). -/
def tryFetch (net : Nat → Except String String) (attemptUrl tag : String)
    (s : WalkState) : WalkState × Bool :=
  match net s.calls with
  | .ok html =>
    ({ attempts := s.attempts ++ [⟨attemptUrl, true, none⟩]
       lastErrMsg := s.lastErrMsg
       fetchResult := some html
       finalAttemptUrl := some attemptUrl
       usedFallbackOrigin := some tag
       calls := s.calls + 1
       delays := s.delays }, true)
  | .error msg =>
    ({ s with
       attempts := s.attempts ++ [⟨attemptUrl, false, some msg⟩]
       lastErrMsg := some msg
       calls := s.calls + 1 }, false)

/-- State 1 (Original): up to `maxRetries = 2` tries of the exact
caller-supplied URL, sleeping `400 * i` before retry `i`. -/
def stageOriginal (net : Nat → Except String String) (url : String)
    (s0 : WalkState) : WalkState :=
  if (tryFetch net url "original" s0).2 then (tryFetch net url "original" s0).1
  else (tryFetch net url "original"
    (((tryFetch net url "original" s0).1).addDelay (annasBackoff 1))).1

/-- The protocol-swapped variant: `http:` ⇄ `https:` with host, pathname,
search and hash preserved. -/
def swappedUrl (u : ParsedUrl) : String :=
  (if u.protocol = "https:" then "http:" else "https:")
    ++ "//" ++ u.host ++ u.pathname ++ u.search ++ u.hash

/-- State 2 (ProtocolSwap): guarded by `!fetchResult`; skipped when the URL
does not parse (the `catch` swallows); otherwise up to 2 tries of the
swapped URL. -/
def stageProtocolSwap (net : Nat → Except String String) (parsed : Option ParsedUrl)
    (s : WalkState) : WalkState :=
  if s.fetchResult.isSome then s
  else
    match parsed with
    | none => s
    | some u =>
      if (tryFetch net (swappedUrl u) "protocol-swapped" s).2 then
        (tryFetch net (swappedUrl u) "protocol-swapped" s).1
      else
        (tryFetch net (swappedUrl u) "protocol-swapped"
          (tryFetch net (swappedUrl u) "protocol-swapped" s).1).1

/-- The trailing-slash variant: slash removed when the pathname ends in one
(`pathname.slice(0, -1)`), added after the pathname otherwise; origin,
search and hash preserved. -/
def slashVariantUrl (u : ParsedUrl) : String :=
  if u.pathname.endsWith "/" then
    u.origin ++ u.pathname.dropRight 1 ++ u.search ++ u.hash
  else
    u.origin ++ u.pathname ++ "/" ++ u.search ++ u.hash

/-- State 3 (TrailingSlashVariant): same shape as state 2. -/
def stageSlashVariant (net : Nat → Except String String) (parsed : Option ParsedUrl)
    (s : WalkState) : WalkState :=
  if s.fetchResult.isSome then s
  else
    match parsed with
    | none => s
    | some u =>
      if (tryFetch net (slashVariantUrl u) "trailing-slash-variant" s).2 then
        (tryFetch net (slashVariantUrl u) "trailing-slash-variant" s).1
      else
        (tryFetch net (slashVariantUrl u) "trailing-slash-variant"
          (tryFetch net (slashVariantUrl u) "trailing-slash-variant" s).1).1

/-- The mirror loop body: one try per configured origin, stopping at the
first success. -/
def mirrorLoop (net : Nat → Except String String) (parsed : Option ParsedUrl)
    (url : String) : List String → WalkState → WalkState
  | [], s => s
  | origin :: rest, s =>
    if (tryFetch net (normalizeUrlCandidate parsed url (some origin))
        ("mirror-origin:" ++ origin) s).2 then
      (tryFetch net (normalizeUrlCandidate parsed url (some origin))
        ("mirror-origin:" ++ origin) s).1
    else
      mirrorLoop net parsed url rest
        (tryFetch net (normalizeUrlCandidate parsed url (some origin))
          ("mirror-origin:" ++ origin) s).1

/-- State 4 (MirrorOrigin): guarded by `!fetchResult`. -/
def stageMirrors (net : Nat → Except String String) (parsed : Option ParsedUrl)
    (url : String) (s : WalkState) : WalkState :=
  if s.fetchResult.isSome then s else mirrorLoop net parsed url MIRROR_ORIGINS s

/-- State 5 (RawHttpLastResort): guarded by `!fetchResult`; one call to the
dynamically imported `fetchHTML` of lib/fetcher.ts on the original URL
(modelled as available — both modules are repository files). Its success
path fills the same fields `tryFetch` fills, with tag `http-fallback`. -/
def stageHttpLastResort (net : Nat → Except String String) (url : String)
    (s : WalkState) : WalkState :=
  if s.fetchResult.isSome then s else (tryFetch net url "http-fallback" s).1

/-- The final response object of a completed walk (the `title`,
`description`, `durationMs` and `timestamp` fields carry no claim-relevant
structure and are omitted; `fetchResult`/`rawHtml` are collapsed to the
returned html string). -/
structure AnnasOutcome where
  success : Bool
  error : Option String
  attempts : List FetchAttempt
  finalAttemptUrl : Option String
  usedFallbackOrigin : Option String
  rawHtml : Option String
  rawHtmlLength : Nat
  calls : Nat
  delays : List Nat
deriving Repr

/-- What `AnnasProvider.scrape` resolves with: the early
invalid-URL response object (which carries `title`, `error`, `sourceUrl`,
`timestamp` and no `success`/`attempts` fields) or a full walk outcome. -/
inductive AnnasResponse where
  | invalidUrl (sourceUrl : String)
  | outcome (o : AnnasOutcome)
deriving Repr

/-- Package the final `WalkState` as the source's response literal:
`success: !!fetchResult`, `error: fetchResult ? null : lastErrMsg`,
`rawHtmlLength` from the html when present. -/
def finishWalk (s : WalkState) : AnnasResponse :=
  .outcome
    { success := s.fetchResult.isSome
      error := match s.fetchResult with | some _ => none | none => s.lastErrMsg
      attempts := s.attempts
      finalAttemptUrl := s.finalAttemptUrl
      usedFallbackOrigin := s.usedFallbackOrigin
      rawHtml := s.fetchResult
      rawHtmlLength := match s.fetchResult with | some h => h.length | none => 0
      calls := s.calls
      delays := s.delays }

/-- The fresh state at the top of a walk. -/
def initialWalkState : WalkState := ⟨[], none, none, none, none, 0, []⟩

/-- Proof-support predicate: the audit-trail invariant maintained by every
state of the walk — while no fetch has succeeded every recorded attempt is
a failure, and in any case every attempt except possibly the last is a
failure (the walk stops at the first success). -/
def WalkInv (s : WalkState) : Prop :=
  (s.fetchResult = none → ∀ a ∈ s.attempts, a.success = false)
    ∧ (∀ a ∈ s.attempts.dropLast, a.success = false)

/-- `AnnasProvider.scrape`. The `Except` codomain records where a thrown
rejection would surface; every failure inside the body is caught by the
source (`tryFetch`'s catch, the per-state catches, the guarded dynamic
import), so the translation yields `.ok` on every path — including the
missing-URL guard `if (!url || typeof url !== "string")`, which *returns*
an error object rather than throwing. -/
def scrape (net : Nat → Except String String) (url : String)
    (parsed : Option ParsedUrl) : Except String AnnasResponse :=
  if url = "" then .ok (.invalidUrl url)
  else
    .ok (finishWalk
      (stageHttpLastResort net url
        (stageMirrors net parsed url
          (stageSlashVariant net parsed
            (stageProtocolSwap net parsed
              (stageOriginal net url initialWalkState))))))

/-! ## FetchOrchestrator — the exported `fetchWithPlaywright` of
lib/playwrightFetcher.ts (strategy-chain variant, src/unnamed/part_003)

Environment switches and strategy availability are explicit configuration;
each launch-and-navigate strategy and the HTTP fallback is an oracle
outcome (launch failure and navigation failure both surface as the
strategy's error). The sequence of physical attempts is materialized as a
trail. -/

/-- Environment configuration read by the orchestrator: `VERCEL`,
`DISABLE_PLAYWRIGHT=1`, and whether the sparticuz + playwright-core
fallback is usable (both modules import and the executable path exists —
the guards at the best-effort attempt). -/
structure PwEnv where
  isVercel : Bool
  disablePlaywright : Bool
  coreAvailable : Bool
deriving Repr, DecidableEq

/-- Oracle outcomes of the three render strategies and the HTTP fallback. -/
structure RenderNet where
  serverless : Except String String
  fullPw : Except String String
  corePw : Except String String
  http : Except String String
deriving Repr

/-- Which tier produced an attempt. -/
inductive Tier where
  | render
  | http
deriving Repr, DecidableEq

/-- One physical attempt of the orchestrator. -/
structure TierAttempt where
  tier : Tier
  success : Bool
deriving Repr, DecidableEq

/-- How many render strategies the orchestrator attempts before falling
back to HTTP (serverless chromium only on Vercel, full playwright always,
core + sparticuz only when usable). -/
def renderBudget (env : PwEnv) : Nat :=
  (if env.isVercel then 1 else 0) + 1 + (if env.coreAvailable then 1 else 0)

/-- The final HTTP fallback of the chain: on failure the thrown message is
`All attempts to render page failed. Last error: …`. -/
def httpFinal (net : RenderNet) (trail : List TierAttempt) :
    Except String String × List TierAttempt :=
  match net.http with
  | .ok h => (.ok h, trail ++ [⟨.http, true⟩])
  | .error e =>
    (.error ("All attempts to render page failed. Last error: " ++ e),
     trail ++ [⟨.http, false⟩])

/-- The chain from the full-playwright attempt on: full playwright, then
the best-effort core + sparticuz attempt when usable, then HTTP. -/
def afterServerless (env : PwEnv) (net : RenderNet) (trail : List TierAttempt) :
    Except String String × List TierAttempt :=
  match net.fullPw with
  | .ok h => (.ok h, trail ++ [⟨.render, true⟩])
  | .error _ =>
    if env.coreAvailable then
      match net.corePw with
      | .ok h => (.ok h, trail ++ [⟨.render, false⟩, ⟨.render, true⟩])
      | .error _ => httpFinal net (trail ++ [⟨.render, false⟩, ⟨.render, false⟩])
    else httpFinal net (trail ++ [⟨.render, false⟩])

/-- The exported `fetchWithPlaywright` of the strategy-chain variant:
forced HTTP when playwright is disabled (an HTTP error then propagates
unwrapped), otherwise serverless chromium first on Vercel, then the rest of
the chain. -/
def fetchWithPlaywrightChain (env : PwEnv) (net : RenderNet) :
    Except String String × List TierAttempt :=
  if env.disablePlaywright then
    match net.http with
    | .ok h => (.ok h, [⟨.http, true⟩])
    | .error e => (.error e, [⟨.http, false⟩])
  else if env.isVercel then
    match net.serverless with
    | .ok h => (.ok h, [⟨.render, true⟩])
    | .error _ => afterServerless env net [⟨.render, false⟩]
  else afterServerless env net []

/-- No-interleaving of tiers, as a computation on the trail: after the
leading render attempts, only HTTP attempts remain. -/
def rendersBeforeHttp (l : List TierAttempt) : Bool :=
  (l.dropWhile (fun a => a.tier == Tier.render)).all (fun a => a.tier == Tier.http)

/-! ## Renderer lifecycle — `fetchWithPlaywright`, src/lib/playwrightFetcher.ts

The per-request resource events, materialized as a trace. Cookie injection,
resource routing and the readiness waits either succeed or have their
errors swallowed by the source (`try {} catch {}` / `.catch(() => {})`), so
they do not branch; `ensurePlaywrightBrowser`, `page.goto` and
`page.content()` can throw into the outer catch. `newContext`/`newPage` are
modelled as succeeding. -/

/-- Resource lifecycle events of one render call. -/
inductive PwEvent where
  | contextOpen
  | pageOpen
  | pageClose
  | contextClose
  | browserClose
deriving Repr, DecidableEq

/-- Oracle outcomes of the fallible steps of one render call. -/
structure PwSteps where
  browserInit : Except String Unit
  gotoNav : Except String Unit
  pageContent : Except String String
  httpFallback : Except String String
deriving Repr

/-- The outer catch of `fetchWithPlaywright`: fall back to HTTP; if that
also fails, throw the combined message. The events recorded so far are
carried unchanged — the catch performs no cleanup. -/
def pwCatch (st : PwSteps) (err : String) (events : List PwEvent) :
    Except String String × List PwEvent :=
  match st.httpFallback with
  | .ok h => (.ok h, events)
  | .error he =>
    (.error ("Playwright failed: " ++ err ++ "; HTTP fallback also failed: " ++ he),
     events)

/-- One call of `fetchWithPlaywright` (src/lib/playwrightFetcher.ts): the
`page.close()`/`context.close()` pair runs only after `page.content()`
succeeded — there is no `finally` — and `browser.close()` is never called
(the singleton is kept for reuse). -/
def renderRun (st : PwSteps) : Except String String × List PwEvent :=
  match st.browserInit with
  | .error e => pwCatch st e []
  | .ok _ =>
    match st.gotoNav with
    | .error e => pwCatch st e [.contextOpen, .pageOpen]
    | .ok _ =>
      match st.pageContent with
      | .error e => pwCatch st e [.contextOpen, .pageOpen]
      | .ok html =>
        (.ok html, [.contextOpen, .pageOpen, .pageClose, .contextClose])

/-! ## Cookie normalization — src/lib/playwrightFetcher.ts lines 152–167 -/

/-- One entry of the cookie file, before normalization: `name` and `value`
present, the rest optional (`httpOnly`/`secure` go through `!!`, modelled
as the Booleans they yield). -/
structure RawCookie where
  name : String
  value : String
  domain : Option String
  path : Option String
  expires : Option Nat
  httpOnly : Bool
  secure : Bool
  sameSite : Option String
deriving Repr, DecidableEq

/-- A cookie as handed to `context.addCookies`. -/
structure PwCookie where
  name : String
  value : String
  domain : String
  path : String
  expires : Option Nat
  httpOnly : Bool
  secure : Bool
  sameSite : String
deriving Repr, DecidableEq

/-- `d.replace(/^\./, "")`: strip one leading dot. -/
def stripLeadingDot (d : String) : String :=
  if d.startsWith "." then d.drop 1 else d

/-- The normalization map applied to each cookie entry:
`domain: c.domain?.replace(/^\./, "") || new URL(url).hostname` (a missing
domain, or one that strips to the empty string, falls back to the target
hostname), `path: c.path || "/"`, `expires: c.expires ? Number(c.expires) :
undefined` (`0` is falsy), `sameSite: c.sameSite || "Lax"`. -/
def normalizeCookie (hostname : String) (c : RawCookie) : PwCookie :=
  { name := c.name
    value := c.value
    domain := match c.domain with
      | none => hostname
      | some d => if stripLeadingDot d = "" then hostname else stripLeadingDot d
    path := match c.path with
      | none => "/"
      | some p => if p = "" then "/" else p
    expires := match c.expires with
      | none => none
      | some e => if e = 0 then none else some e
    httpOnly := c.httpOnly
    secure := c.secure
    sameSite := match c.sameSite with
      | none => "Lax"
      | some t => if t = "" then "Lax" else t }

/-! ## `parseAnnasSearch` dedupe and md5 filter —
src/lib/parsers/annasSearch.ts lines 77–92

The anchor records are built by cheerio DOM extraction upstream of the
claimed behaviour; they enter the model as data (the `attributes`,
`parentText`, `parentHtml`, `outerHtml` and `text` fields play no role in
the dedupe/filter logic and are omitted). -/

/-- An anchor record as consumed by the dedupe/filter tail. -/
structure AnnasRawAnchor where
  href : String
  resolvedHref : String
deriving Repr, DecidableEq

/-- The dedupe key: `r.resolvedHref || r.href`. -/
def anchorKey (r : AnnasRawAnchor) : String :=
  if r.resolvedHref = "" then r.href else r.resolvedHref

/-- The `filter` with the mutable `seen` set, threaded explicitly: keep an
anchor only when its key has not been seen. -/
def dedupeByKey (seen : List String) : List AnnasRawAnchor → List AnnasRawAnchor
  | [] => []
  | r :: rest =>
    if anchorKey r ∈ seen then dedupeByKey seen rest
    else r :: dedupeByKey (anchorKey r :: seen) rest

/-- The md5 convenience filter:
`r.href.includes("/md5/") || r.resolvedHref.includes("/md5/")`. -/
def md5Pred (r : AnnasRawAnchor) : Bool :=
  includesSub r.href.toList "/md5/".toList
    || includesSub r.resolvedHref.toList "/md5/".toList

/-- The tail of `parseAnnasSearch`: the deduped `rawResults` and the
`md5Results` filtered from them. -/
def parseAnnasSearchTail (rawResults : List AnnasRawAnchor) :
    List AnnasRawAnchor × List AnnasRawAnchor :=
  (dedupeByKey [] rawResults, (dedupeByKey [] rawResults).filter md5Pred)

/-! ## Helper lemmas about the substring model -/

/-- A nonempty pattern containing a character other than `c` is never a
Boolean prefix of a run of `c`s. -/
lemma isPrefixOfB_replicate_eq_false {s : List Char} {d c : Char}
    (hd : d ∈ s) (hne : d ≠ c) : ∀ m, isPrefixOfB s (List.replicate m c) = false := by
  induction s with
  | nil => cases hd
  | cons a as ih =>
    intro m
    cases m with
    | zero => rfl
    | succ m =>
      rw [List.replicate_succ]
      show (a == c && isPrefixOfB as (List.replicate m c)) = false
      rcases List.mem_cons.mp hd with rfl | hd'
      · simp [hne]
      · simp [ih hd' m]

/-- A pattern containing a character other than `c` never occurs inside a
run of `c`s. -/
lemma includesSub_replicate_eq_false {s : List Char} {d c : Char}
    (hd : d ∈ s) (hne : d ≠ c) : ∀ n, includesSub (List.replicate n c) s = false := by
  intro n
  induction n with
  | zero =>
    show isPrefixOfB s [] = false
    cases s with
    | nil => cases hd
    | cons a as => rfl
  | succ n ih =>
    rw [List.replicate_succ]
    show (isPrefixOfB s (c :: List.replicate n c) || includesSub (List.replicate n c) s) = false
    rw [show (c :: List.replicate n c) = List.replicate (n + 1) c from (List.replicate_succ c n).symm]
    rw [isPrefixOfB_replicate_eq_false hd hne, ih]
    rfl

/-- Lowercasing a run of `c`s yields a run of `c.toLower`s. -/
lemma lowerStr_replicate (n : Nat) (c : Char) :
    lowerStr (List.replicate n c) = List.replicate n c.toLower := by
  simp [lowerStr]

/-- Dropping-while over a constant run the predicate rejects is the identity. -/
lemma dropWhile_replicate_of_neg {p : Char → Bool} {c : Char} (h : p c = false) :
    ∀ n, List.dropWhile p (List.replicate n c) = List.replicate n c := by
  intro n
  cases n with
  | zero => rfl
  | succ n => rw [List.replicate_succ, List.dropWhile_cons, h]; simp

/-- `jsTrim` leaves a run of non-whitespace characters unchanged. -/
lemma jsTrim_replicate_of_neg {c : Char} (h : Char.isWhitespace c = false) (n : Nat) :
    jsTrim (List.replicate n c) = List.replicate n c := by
  unfold jsTrim
  rw [dropWhile_replicate_of_neg h, List.reverse_replicate,
    dropWhile_replicate_of_neg h, List.reverse_replicate]

/-- No protection signature occurs in a run of `'z'`s. -/
lemma no_signature_in_z_run (n : Nat) :
    ∀ sig ∈ BLOCK_SIGNATURES, includesSub (lowerStr (List.replicate n 'z')) sig = false := by
  intro sig hsig
  rw [lowerStr_replicate, show Char.toLower 'z' = 'z' from by decide]
  simp only [BLOCK_SIGNATURES, List.mem_cons, List.not_mem_nil, or_false] at hsig
  rcases hsig with rfl | rfl | rfl | rfl | rfl
  · exact includesSub_replicate_eq_false (d := 'd') (by decide) (by decide) n
  · exact includesSub_replicate_eq_false (d := 'a') (by decide) (by decide) n
  · exact includesSub_replicate_eq_false (d := 'c') (by decide) (by decide) n
  · exact includesSub_replicate_eq_false (d := 'v') (by decide) (by decide) n
  · exact includesSub_replicate_eq_false (d := 'j') (by decide) (by decide) n

/-- A sufficiently long run of `'z'`s is not flagged by the detector. -/
lemma isBlocked_z_run {n : Nat} (h : MIN_BODY_LENGTH ≤ n) :
    isBlocked (List.replicate n 'z') = false := by
  have hs := no_signature_in_z_run n
  simp only [isBlocked, Bool.or_eq_false_iff, List.any_eq_false,
    decide_eq_false_iff_not, List.length_replicate]
  constructor
  · intro sig hsig
    simp [hs sig hsig]
  · omega

/-! ## Lemmas about the `fetchHTML` retry loop -/

/-- One unfolding step of the retry loop. -/
lemma fetchHTMLGo_succ (net : Nat → NetResult) (fuel : Nat) (lastErr : Option String) :
    fetchHTMLGo net (fuel + 1) lastErr =
      match attemptOutcome (net (MAX_RETRIES - fuel)) with
      | .ok html => ⟨.ok html, 1, []⟩
      | .error e =>
        ⟨(fetchHTMLGo net fuel (some e)).result,
         (fetchHTMLGo net fuel (some e)).callCount + 1,
         httpBackoff (MAX_RETRIES - fuel) :: (fetchHTMLGo net fuel (some e)).delays⟩ := rfl

/-- A try succeeds exactly when the guards pass: sub-400 status, a body
that is not empty or whitespace-only, and no protection match. -/
lemma attemptOutcome_of_good (status : Nat) (body : List Char)
    (h1 : status < 400) (h2 : (jsTrim body).length ≠ 0) (h3 : isBlocked body = false) :
    attemptOutcome (.resp status body) = .ok body := by
  simp [attemptOutcome, Nat.not_le.mpr h1, h2, h3]

/-- Whatever one try returns on success satisfies the detector-derived
postcondition: at least 2000 characters and no signature in the lowercase
form. -/
lemma attemptOutcome_ok_postcondition {r : NetResult} {html : List Char}
    (h : attemptOutcome r = .ok html) :
    MIN_BODY_LENGTH ≤ html.length
      ∧ ∀ sig ∈ BLOCK_SIGNATURES, includesSub (lowerStr html) sig = false := by
  cases r with
  | netError m => simp [attemptOutcome] at h
  | resp status body =>
    simp only [attemptOutcome] at h
    split_ifs at h with g1 g2 g3
    rw [Except.ok.injEq] at h
    subst h
    have hb : isBlocked body = false := by
      revert g3
      cases isBlocked body <;> simp
    simp only [isBlocked, Bool.or_eq_false_iff, List.any_eq_false,
      decide_eq_false_iff_not] at hb
    refine ⟨by omega, ?_⟩
    intro sig hsig
    have hinc := hb.1 sig hsig
    revert hinc
    cases includesSub (lowerStr body) sig <;> simp

/-- Any successful result of the retry loop came from one of the tries. -/
lemma fetchHTMLGo_ok {net : Nat → NetResult} :
    ∀ fuel lastErr html, (fetchHTMLGo net fuel lastErr).result = .ok html →
      ∃ k, attemptOutcome (net k) = .ok html := by
  intro fuel
  induction fuel with
  | zero => intro lastErr html h; simp [fetchHTMLGo] at h
  | succ fuel ih =>
    intro lastErr html h
    rw [fetchHTMLGo_succ] at h
    cases hao : attemptOutcome (net (MAX_RETRIES - fuel)) with
    | ok b =>
      rw [hao] at h
      simp only at h
      cases h
      exact ⟨MAX_RETRIES - fuel, hao⟩
    | error e =>
      rw [hao] at h
      simp only at h
      exact ih (some e) html h

/-- The retry loop consults the network at most `fuel` times. -/
lemma fetchHTMLGo_callCount_le {net : Nat → NetResult} :
    ∀ fuel lastErr, (fetchHTMLGo net fuel lastErr).callCount ≤ fuel := by
  intro fuel
  induction fuel with
  | zero => intro lastErr; simp [fetchHTMLGo]
  | succ fuel ih =>
    intro lastErr
    rw [fetchHTMLGo_succ]
    cases attemptOutcome (net (MAX_RETRIES - fuel)) with
    | ok b => simp
    | error e =>
      simp only
      exact Nat.succ_le_succ (ih (some e))

/-- Backoff delays recorded by the retry loop grow strictly, and each is at
least the backoff of the first attempt the loop can still make. -/
lemma fetchHTMLGo_delays {net : Nat → NetResult} :
    ∀ fuel, fuel ≤ MAX_RETRIES → ∀ lastErr,
      List.Chain' (· < ·) (fetchHTMLGo net fuel lastErr).delays
        ∧ ∀ d ∈ (fetchHTMLGo net fuel lastErr).delays,
            httpBackoff (MAX_RETRIES - fuel + 1) ≤ d := by
  intro fuel
  induction fuel with
  | zero => intro _ lastErr; simp [fetchHTMLGo]
  | succ fuel ih =>
    intro hle lastErr
    rw [fetchHTMLGo_succ]
    cases attemptOutcome (net (MAX_RETRIES - fuel)) with
    | ok b => simp
    | error e =>
      simp only
      obtain ⟨hchain, hbound⟩ := ih (Nat.le_of_succ_le hle) (some e)
      have hstep : MAX_RETRIES - (fuel + 1) + 1 = MAX_RETRIES - fuel := by omega
      constructor
      · rw [List.chain'_cons']
        refine ⟨?_, hchain⟩
        intro y hy
        have hmem : y ∈ (fetchHTMLGo net fuel (some e)).delays := by
          rw [List.eq_cons_of_mem_head? hy]
          exact List.mem_cons_self _ _
        have := hbound y hmem
        simp only [httpBackoff] at this ⊢
        omega
      · intro d hd
        rcases List.mem_cons.mp hd with rfl | hd'
        · rw [hstep]
        · have := hbound d hd'
          simp only [httpBackoff] at this ⊢
          omega

/-! ## Lemmas about the fallback walk -/

/-- Closed form of a `tryFetch` call whose fetch fails. -/
lemma tryFetch_fail {net : Nat → Except String String} {errs : Nat → String}
    (hfail : ∀ k, net k = .error (errs k)) (attemptUrl tag : String) (s : WalkState) :
    tryFetch net attemptUrl tag s =
      ({ s with
         attempts := s.attempts ++ [⟨attemptUrl, false, some (errs s.calls)⟩]
         lastErrMsg := some (errs s.calls)
         calls := s.calls + 1 }, false) := by
  unfold tryFetch
  rw [hfail]

/-- A `tryFetch` call advances the physical call counter by exactly one. -/
lemma tryFetch_calls (net : Nat → Except String String) (u t : String) (s : WalkState) :
    (tryFetch net u t s).1.calls = s.calls + 1 := by
  unfold tryFetch
  cases net s.calls <;> rfl

/-- A `tryFetch` call never sleeps. -/
lemma tryFetch_delays (net : Nat → Except String String) (u t : String) (s : WalkState) :
    (tryFetch net u t s).1.delays = s.delays := by
  unfold tryFetch
  cases net s.calls <;> rfl

/-- The Original state makes at most two fetch calls. -/
lemma stageOriginal_calls (net : Nat → Except String String) (url : String) (s : WalkState) :
    (stageOriginal net url s).calls ≤ s.calls + 2 := by
  unfold stageOriginal
  split
  · rw [tryFetch_calls]
    omega
  · rw [tryFetch_calls]
    unfold WalkState.addDelay
    dsimp only
    rw [tryFetch_calls]

/-- The Original state sleeps only the single `400 * 1` backoff, if anything. -/
lemma stageOriginal_delays (net : Nat → Except String String) (url : String) (s : WalkState) :
    (stageOriginal net url s).delays = s.delays
      ∨ (stageOriginal net url s).delays = s.delays ++ [annasBackoff 1] := by
  unfold stageOriginal
  split
  · left
    rw [tryFetch_delays]
  · right
    rw [tryFetch_delays]
    unfold WalkState.addDelay
    dsimp only
    rw [tryFetch_delays]

/-- The ProtocolSwap state makes at most two fetch calls. -/
lemma stageProtocolSwap_calls (net : Nat → Except String String)
    (parsed : Option ParsedUrl) (s : WalkState) :
    (stageProtocolSwap net parsed s).calls ≤ s.calls + 2 := by
  unfold stageProtocolSwap
  split
  · omega
  · split
    · omega
    · split
      · rw [tryFetch_calls]; omega
      · rw [tryFetch_calls, tryFetch_calls]

/-- The ProtocolSwap state never sleeps. -/
lemma stageProtocolSwap_delays (net : Nat → Except String String)
    (parsed : Option ParsedUrl) (s : WalkState) :
    (stageProtocolSwap net parsed s).delays = s.delays := by
  unfold stageProtocolSwap
  split
  · rfl
  · split
    · rfl
    · split
      · rw [tryFetch_delays]
      · rw [tryFetch_delays, tryFetch_delays]

/-- The TrailingSlashVariant state makes at most two fetch calls. -/
lemma stageSlashVariant_calls (net : Nat → Except String String)
    (parsed : Option ParsedUrl) (s : WalkState) :
    (stageSlashVariant net parsed s).calls ≤ s.calls + 2 := by
  unfold stageSlashVariant
  split
  · omega
  · split
    · omega
    · split
      · rw [tryFetch_calls]; omega
      · rw [tryFetch_calls, tryFetch_calls]

/-- The TrailingSlashVariant state never sleeps. -/
lemma stageSlashVariant_delays (net : Nat → Except String String)
    (parsed : Option ParsedUrl) (s : WalkState) :
    (stageSlashVariant net parsed s).delays = s.delays := by
  unfold stageSlashVariant
  split
  · rfl
  · split
    · rfl
    · split
      · rw [tryFetch_delays]
      · rw [tryFetch_delays, tryFetch_delays]

/-- The mirror loop makes at most one fetch call per configured origin. -/
lemma mirrorLoop_calls (net : Nat → Except String String) (parsed : Option ParsedUrl)
    (url : String) : ∀ (l : List String) (s : WalkState),
    (mirrorLoop net parsed url l s).calls ≤ s.calls + l.length := by
  intro l
  induction l with
  | nil => intro s; simp [mirrorLoop]
  | cons origin rest ih =>
    intro s
    unfold mirrorLoop
    split
    · rw [tryFetch_calls]
      simp only [List.length_cons]
      omega
    · have hrec := ih (tryFetch net (normalizeUrlCandidate parsed url (some origin))
        ("mirror-origin:" ++ origin) s).1
      rw [tryFetch_calls] at hrec
      simp only [List.length_cons]
      omega

/-- The mirror loop never sleeps. -/
lemma mirrorLoop_delays (net : Nat → Except String String) (parsed : Option ParsedUrl)
    (url : String) : ∀ (l : List String) (s : WalkState),
    (mirrorLoop net parsed url l s).delays = s.delays := by
  intro l
  induction l with
  | nil => intro s; rfl
  | cons origin rest ih =>
    intro s
    unfold mirrorLoop
    split
    · rw [tryFetch_delays]
    · rw [ih, tryFetch_delays]

/-- The MirrorOrigin state makes at most three fetch calls. -/
lemma stageMirrors_calls (net : Nat → Except String String) (parsed : Option ParsedUrl)
    (url : String) (s : WalkState) :
    (stageMirrors net parsed url s).calls ≤ s.calls + 3 := by
  unfold stageMirrors
  split
  · omega
  · exact mirrorLoop_calls net parsed url MIRROR_ORIGINS s

/-- The MirrorOrigin state never sleeps. -/
lemma stageMirrors_delays (net : Nat → Except String String) (parsed : Option ParsedUrl)
    (url : String) (s : WalkState) :
    (stageMirrors net parsed url s).delays = s.delays := by
  unfold stageMirrors
  split
  · rfl
  · exact mirrorLoop_delays net parsed url MIRROR_ORIGINS s

/-- The RawHttpLastResort state makes at most one fetch call and never sleeps. -/
lemma stageHttpLastResort_calls_delays (net : Nat → Except String String)
    (url : String) (s : WalkState) :
    (stageHttpLastResort net url s).calls ≤ s.calls + 1
      ∧ (stageHttpLastResort net url s).delays = s.delays := by
  unfold stageHttpLastResort
  split
  · exact ⟨by omega, rfl⟩
  · exact ⟨by rw [tryFetch_calls], tryFetch_delays net url "http-fallback" s⟩

/-- A full walk makes at most ten fetch calls and sleeps at most the single
Original-state backoff. -/
lemma scrape_calls_delays (net : Nat → Except String String) (url : String)
    (parsed : Option ParsedUrl) (o : AnnasOutcome)
    (h : scrape net url parsed = .ok (.outcome o)) :
    o.calls ≤ 10 ∧ (o.delays = [] ∨ o.delays = [annasBackoff 1]) := by
  unfold scrape at h
  split at h
  · cases h
  · rw [Except.ok.injEq] at h
    unfold finishWalk at h
    rw [AnnasResponse.outcome.injEq] at h
    subst h
    dsimp only
    have h1c := stageOriginal_calls net url initialWalkState
    have h2c := stageProtocolSwap_calls net parsed (stageOriginal net url initialWalkState)
    have h3c := stageSlashVariant_calls net parsed
      (stageProtocolSwap net parsed (stageOriginal net url initialWalkState))
    have h4c := stageMirrors_calls net parsed url
      (stageSlashVariant net parsed
        (stageProtocolSwap net parsed (stageOriginal net url initialWalkState)))
    have h5c := (stageHttpLastResort_calls_delays net url
      (stageMirrors net parsed url
        (stageSlashVariant net parsed
          (stageProtocolSwap net parsed (stageOriginal net url initialWalkState))))).1
    have h5d := (stageHttpLastResort_calls_delays net url
      (stageMirrors net parsed url
        (stageSlashVariant net parsed
          (stageProtocolSwap net parsed (stageOriginal net url initialWalkState))))).2
    have h4d := stageMirrors_delays net parsed url
      (stageSlashVariant net parsed
        (stageProtocolSwap net parsed (stageOriginal net url initialWalkState)))
    have h3d := stageSlashVariant_delays net parsed
      (stageProtocolSwap net parsed (stageOriginal net url initialWalkState))
    have h2d := stageProtocolSwap_delays net parsed (stageOriginal net url initialWalkState)
    have h1d := stageOriginal_delays net url initialWalkState
    have hinitc : initialWalkState.calls = 0 := rfl
    have hinitd : initialWalkState.delays = [] := rfl
    constructor
    · omega
    · rw [h5d, h4d, h3d, h2d]
      rw [hinitd] at h1d
      simpa using h1d

/-- `tryFetch` preserves the audit-trail invariant; a failed call also
leaves `fetchResult` unset. -/
lemma walkInv_tryFetch (net : Nat → Except String String) (u t : String) (s : WalkState)
    (hnone : s.fetchResult = none) (h : WalkInv s) :
    WalkInv (tryFetch net u t s).1
      ∧ ((tryFetch net u t s).2 = false → (tryFetch net u t s).1.fetchResult = none) := by
  obtain ⟨h1, h2⟩ := h
  unfold tryFetch
  cases net s.calls with
  | ok html =>
    refine ⟨⟨?_, ?_⟩, ?_⟩
    · intro habs; cases habs
    · dsimp only
      intro a ha
      rw [List.dropLast_concat] at ha
      exact h1 hnone a ha
    · intro habs; cases habs
  | error msg =>
    refine ⟨⟨?_, ?_⟩, ?_⟩
    · intro _ a ha
      dsimp only at ha
      rcases List.mem_append.mp ha with hin | hin
      · exact h1 hnone a hin
      · rcases List.mem_singleton.mp hin with rfl
        rfl
    · dsimp only
      intro a ha
      rw [List.dropLast_concat] at ha
      exact h1 hnone a ha
    · intro _
      exact hnone

/-- The Original state preserves the audit-trail invariant. -/
lemma walkInv_stageOriginal (net : Nat → Except String String) (url : String)
    (s : WalkState) (hnone : s.fetchResult = none) (h : WalkInv s) :
    WalkInv (stageOriginal net url s) := by
  unfold stageOriginal
  split
  · exact (walkInv_tryFetch net url "original" s hnone h).1
  case isFalse hko =>
    have hfst := walkInv_tryFetch net url "original" s hnone h
    have hnone1 : (tryFetch net url "original" s).1.fetchResult = none :=
      hfst.2 (Bool.not_eq_true _ ▸ hko)
    exact (walkInv_tryFetch net url "original"
      ((tryFetch net url "original" s).1.addDelay (annasBackoff 1)) hnone1 hfst.1).1

/-- The two-try shape shared by the ProtocolSwap and TrailingSlashVariant
states preserves the audit-trail invariant. -/
lemma walkInv_twoTries (net : Nat → Except String String) (v t : String) (s : WalkState)
    (hnone : s.fetchResult = none) (h : WalkInv s) :
    WalkInv (if (tryFetch net v t s).2 then (tryFetch net v t s).1
      else (tryFetch net v t (tryFetch net v t s).1).1) := by
  split
  · exact (walkInv_tryFetch net v t s hnone h).1
  case isFalse hko =>
    have hfst := walkInv_tryFetch net v t s hnone h
    have hnone1 : (tryFetch net v t s).1.fetchResult = none :=
      hfst.2 (Bool.not_eq_true _ ▸ hko)
    exact (walkInv_tryFetch net v t (tryFetch net v t s).1 hnone1 hfst.1).1

/-- The ProtocolSwap state preserves the audit-trail invariant. -/
lemma walkInv_stageProtocolSwap (net : Nat → Except String String)
    (parsed : Option ParsedUrl) (s : WalkState) (h : WalkInv s) :
    WalkInv (stageProtocolSwap net parsed s) := by
  unfold stageProtocolSwap
  split
  · exact h
  case isFalse hns =>
    have hnone : s.fetchResult = none := by
      cases hsf : s.fetchResult with
      | none => rfl
      | some v => rw [hsf] at hns; simp at hns
    split
    · exact h
    · exact walkInv_twoTries net _ "protocol-swapped" s hnone h

/-- The TrailingSlashVariant state preserves the audit-trail invariant. -/
lemma walkInv_stageSlashVariant (net : Nat → Except String String)
    (parsed : Option ParsedUrl) (s : WalkState) (h : WalkInv s) :
    WalkInv (stageSlashVariant net parsed s) := by
  unfold stageSlashVariant
  split
  · exact h
  case isFalse hns =>
    have hnone : s.fetchResult = none := by
      cases hsf : s.fetchResult with
      | none => rfl
      | some v => rw [hsf] at hns; simp at hns
    split
    · exact h
    · exact walkInv_twoTries net _ "trailing-slash-variant" s hnone h

/-- The mirror loop preserves the audit-trail invariant. -/
lemma walkInv_mirrorLoop (net : Nat → Except String String) (parsed : Option ParsedUrl)
    (url : String) : ∀ (l : List String) (s : WalkState),
    s.fetchResult = none → WalkInv s → WalkInv (mirrorLoop net parsed url l s) := by
  intro l
  induction l with
  | nil => intro s _ h; exact h
  | cons origin rest ih =>
    intro s hnone h
    unfold mirrorLoop
    split
    · exact (walkInv_tryFetch net
        (normalizeUrlCandidate parsed url (some origin))
        ("mirror-origin:" ++ origin) s hnone h).1
    case isFalse hko =>
      have hfst := walkInv_tryFetch net
        (normalizeUrlCandidate parsed url (some origin))
        ("mirror-origin:" ++ origin) s hnone h
      exact ih _ (hfst.2 (Bool.not_eq_true _ ▸ hko)) hfst.1

/-- The MirrorOrigin state preserves the audit-trail invariant. -/
lemma walkInv_stageMirrors (net : Nat → Except String String) (parsed : Option ParsedUrl)
    (url : String) (s : WalkState) (h : WalkInv s) :
    WalkInv (stageMirrors net parsed url s) := by
  unfold stageMirrors
  split
  · exact h
  case isFalse hns =>
    have hnone : s.fetchResult = none := by
      cases hsf : s.fetchResult with
      | none => rfl
      | some v => rw [hsf] at hns; simp at hns
    exact walkInv_mirrorLoop net parsed url MIRROR_ORIGINS s hnone h

/-- The RawHttpLastResort state preserves the audit-trail invariant. -/
lemma walkInv_stageHttpLastResort (net : Nat → Except String String) (url : String)
    (s : WalkState) (h : WalkInv s) :
    WalkInv (stageHttpLastResort net url s) := by
  unfold stageHttpLastResort
  split
  · exact h
  case isFalse hns =>
    have hnone : s.fetchResult = none := by
      cases hsf : s.fetchResult with
      | none => rfl
      | some v => rw [hsf] at hns; simp at hns
    exact (walkInv_tryFetch net url "http-fallback" s hnone h).1

/-- In any completed walk, every attempt except possibly the last is a
failure: the walk stops at the first success. -/
lemma scrape_dropLast_fail (net : Nat → Except String String) (url : String)
    (parsed : Option ParsedUrl) (o : AnnasOutcome)
    (h : scrape net url parsed = .ok (.outcome o)) :
    ∀ a ∈ o.attempts.dropLast, a.success = false := by
  unfold scrape at h
  split at h
  · cases h
  · rw [Except.ok.injEq] at h
    unfold finishWalk at h
    rw [AnnasResponse.outcome.injEq] at h
    subst h
    dsimp only
    have hinit : WalkInv initialWalkState := by
      constructor
      · intro _ a ha
        exact absurd ha (List.not_mem_nil a)
      · intro a ha
        exact absurd ha (List.not_mem_nil a)
    have hfin := walkInv_stageHttpLastResort net url _
      (walkInv_stageMirrors net parsed url _
        (walkInv_stageSlashVariant net parsed _
          (walkInv_stageProtocolSwap net parsed _
            (walkInv_stageOriginal net url initialWalkState rfl hinit))))
    exact hfin.2

/-! ## Lemmas about the dedupe pass -/

/-- The dedupe pass preserves document order: its output is a sublist of
its input. -/
lemma dedupeByKey_sublist : ∀ (l : List AnnasRawAnchor) (seen : List String),
    (dedupeByKey seen l).Sublist l := by
  intro l
  induction l with
  | nil => intro seen; exact List.Sublist.refl []
  | cons r rest ih =>
    intro seen
    unfold dedupeByKey
    split
    · exact (ih seen).cons r
    · exact (ih (anchorKey r :: seen)).cons₂ r

/-- The keys of the dedupe output are pairwise distinct and disjoint from
the already-seen set. -/
lemma dedupeByKey_keys : ∀ (l : List AnnasRawAnchor) (seen : List String),
    ((dedupeByKey seen l).map anchorKey).Nodup
      ∧ ∀ k ∈ (dedupeByKey seen l).map anchorKey, k ∉ seen := by
  intro l
  induction l with
  | nil =>
    intro seen
    exact ⟨List.nodup_nil, by intro k hk; cases hk⟩
  | cons r rest ih =>
    intro seen
    unfold dedupeByKey
    split
    · exact ih seen
    case isFalse hns =>
      obtain ⟨hnodup, hdisj⟩ := ih (anchorKey r :: seen)
      rw [List.map_cons]
      constructor
      · rw [List.nodup_cons]
        refine ⟨?_, hnodup⟩
        intro hmem
        exact hdisj _ hmem (List.mem_cons_self _ _)
      · intro k hk
        rcases List.mem_cons.mp hk with rfl | hk'
        · exact hns
        · intro hks
          exact hdisj k hk' (List.mem_cons_of_mem _ hks)

/-- Every input key not already seen is represented in the dedupe output. -/
lemma dedupeByKey_covers : ∀ (l : List AnnasRawAnchor) (seen : List String)
    (r : AnnasRawAnchor), r ∈ l → anchorKey r ∉ seen →
    anchorKey r ∈ (dedupeByKey seen l).map anchorKey := by
  intro l
  induction l with
  | nil => intro seen r hr; cases hr
  | cons x rest ih =>
    intro seen r hr hnot
    unfold dedupeByKey
    split
    case isTrue hxs =>
      rcases List.mem_cons.mp hr with rfl | hr'
      · exact absurd hxs hnot
      · exact ih seen r hr' hnot
    case isFalse hxs =>
      rw [List.map_cons]
      rcases List.mem_cons.mp hr with rfl | hr'
      · exact List.mem_cons_self _ _
      · by_cases hkey : anchorKey r = anchorKey x
        · rw [hkey]
          exact List.mem_cons_self _ _
        · refine List.mem_cons_of_mem _ ?_
          refine ih (anchorKey x :: seen) r hr' ?_
          intro hmem
          rcases List.mem_cons.mp hmem with heq | hmem'
          · exact hkey heq
          · exact hnot hmem'

/-- Every element the dedupe pass keeps is the first occurrence of its key
among the not-yet-seen input. -/
lemma dedupeByKey_firstOcc : ∀ (l : List AnnasRawAnchor) (seen : List String)
    (b : AnnasRawAnchor), b ∈ dedupeByKey seen l →
    ∃ l1 l2, l = l1 ++ b :: l2
      ∧ ∀ a ∈ l1, anchorKey a ∈ seen ∨ anchorKey a ≠ anchorKey b := by
  intro l
  induction l with
  | nil => intro seen b hb; cases hb
  | cons x rest ih =>
    intro seen b hb
    unfold dedupeByKey at hb
    split at hb
    case isTrue hxs =>
      obtain ⟨l1, l2, heq, hall⟩ := ih seen b hb
      refine ⟨x :: l1, l2, by rw [heq]; rfl, ?_⟩
      intro a ha
      rcases List.mem_cons.mp ha with rfl | ha'
      · exact Or.inl hxs
      · exact hall a ha'
    case isFalse hxs =>
      rcases List.mem_cons.mp hb with rfl | hb'
      · exact ⟨[], rest, rfl, by intro a ha; cases ha⟩
      · have hkb : anchorKey b ∉ anchorKey x :: seen := by
          have hmap : anchorKey b ∈ (dedupeByKey (anchorKey x :: seen) rest).map anchorKey :=
            List.mem_map_of_mem anchorKey hb'
          exact (dedupeByKey_keys rest (anchorKey x :: seen)).2 _ hmap
        obtain ⟨l1, l2, heq, hall⟩ := ih (anchorKey x :: seen) b hb'
        refine ⟨x :: l1, l2, by rw [heq]; rfl, ?_⟩
        intro a ha
        rcases List.mem_cons.mp ha with rfl | ha'
        · right
          intro habs
          exact hkb (habs ▸ List.mem_cons_self _ _)
        · rcases hall a ha' with hin | hne
          · rcases List.mem_cons.mp hin with heq2 | hin'
            · right
              intro habs
              exact hkb (heq2 ▸ habs ▸ List.mem_cons_self _ _)
            · exact Or.inl hin'
          · exact Or.inr hne

/-- Closed form of a full walk in which every fetch fails: ten attempts in
chain order, no success, the last error retained. -/
lemma scrape_allfail_eval {net : Nat → Except String String} {errs : Nat → String}
    (hfail : ∀ k, net k = .error (errs k)) (url : String) (u : ParsedUrl)
    (hurl : ¬ url = "") :
    scrape net url (some u) = .ok (.outcome
      { success := false
        error := some (errs 9)
        attempts :=
          [⟨url, false, some (errs 0)⟩, ⟨url, false, some (errs 1)⟩,
           ⟨swappedUrl u, false, some (errs 2)⟩, ⟨swappedUrl u, false, some (errs 3)⟩,
           ⟨slashVariantUrl u, false, some (errs 4)⟩,
           ⟨slashVariantUrl u, false, some (errs 5)⟩,
           ⟨normalizeUrlCandidate (some u) url (some "https://annas-archive.li"), false,
             some (errs 6)⟩,
           ⟨normalizeUrlCandidate (some u) url (some "https://annas-archive.org"), false,
             some (errs 7)⟩,
           ⟨normalizeUrlCandidate (some u) url (some "https://annas-archive.se"), false,
             some (errs 8)⟩,
           ⟨url, false, some (errs 9)⟩]
        finalAttemptUrl := none
        usedFallbackOrigin := none
        rawHtml := none
        rawHtmlLength := 0
        calls := 10
        delays := [annasBackoff 1] }) := by
  simp only [scrape, if_neg hurl, stageOriginal, stageProtocolSwap, stageSlashVariant,
    stageMirrors, stageHttpLastResort, mirrorLoop, MIRROR_ORIGINS, initialWalkState,
    WalkState.addDelay, tryFetch_fail hfail, finishWalk]
  simp

end Scraper

namespace Scraper

/-! ## Claim theorems: ProtectionDetector -/

/-- **C2.** For every body, `isBlocked` returns true exactly when the
lowercased body contains one of the fixed signature substrings or the body
length is below the 2000-character floor; consequently any body containing
a signature is blocked, any 5000-character body containing no signature is
not blocked, and any 100-character body is blocked. -/
theorem isBlocked_characterization (body : List Char) :
    (isBlocked body = true ↔
      (∃ sig ∈ BLOCK_SIGNATURES, includesSub (lowerStr body) sig = true)
        ∨ body.length < MIN_BODY_LENGTH)
    ∧ (∀ sig ∈ BLOCK_SIGNATURES, includesSub (lowerStr body) sig = true →
        isBlocked body = true)
    ∧ (body.length = 5000 →
        (∀ sig ∈ BLOCK_SIGNATURES, includesSub (lowerStr body) sig = false) →
        isBlocked body = false)
    ∧ (body.length = 100 → isBlocked body = true) := by
  refine ⟨?_, ?_, ?_, ?_⟩
  · simp [isBlocked, List.any_eq_true]
  · intro sig hsig hinc
    simp only [isBlocked, Bool.or_eq_true, List.any_eq_true]
    exact Or.inl ⟨sig, hsig, hinc⟩
  · intro hlen hnone
    simp only [isBlocked, Bool.or_eq_false_iff, List.any_eq_false, decide_eq_false_iff_not]
    constructor
    · intro sig hsig
      simp [hnone sig hsig]
    · simp only [MIN_BODY_LENGTH]
      omega
  · intro hlen
    simp only [isBlocked, Bool.or_eq_true, decide_eq_true_iff, MIN_BODY_LENGTH]
    right
    omega

/-- Witness for C2: a 100-character body is blocked and a 5000-character
signature-free body is not. -/
theorem isBlocked_characterization_witness :
    isBlocked (List.replicate 100 'a') = true
      ∧ isBlocked (List.replicate 5000 'z') = false := by
  constructor
  · exact (isBlocked_characterization (List.replicate 100 'a')).2.2.2
      (by rw [List.length_replicate])
  · exact (isBlocked_characterization (List.replicate 5000 'z')).2.2.1
      (by rw [List.length_replicate]) (no_signature_in_z_run 5000)

/-! ## Claim theorems: raw-HTTP fetcher -/

/-- **C5.** A single `fetchHTML` try fails exactly when the status is ≥ 400,
the body is empty or whitespace-only, or the detector flags it (for a
network-level response; a transport error also fails, outside the claim's
scope); a sub-400 status with a good body never throws; a successful
`fetchHTML` run returns a body of non-zero length; and when all three tries
fail, `fetchHTML` throws a message carrying the last try's error. -/
theorem fetchHTML_failure_semantics :
    (∀ status body, (∃ e, attemptOutcome (.resp status body) = .error e) ↔
        (400 ≤ status ∨ (jsTrim body).length = 0 ∨ isBlocked body = true))
    ∧ (∀ status body, status < 400 → (jsTrim body).length ≠ 0 →
        isBlocked body = false → attemptOutcome (.resp status body) = .ok body)
    ∧ (∀ net html, (fetchHTML net).result = .ok html → html.length ≠ 0)
    ∧ (∀ (net : Nat → NetResult) e1 e2 e3,
        attemptOutcome (net 1) = .error e1 → attemptOutcome (net 2) = .error e2 →
        attemptOutcome (net 3) = .error e3 →
        (fetchHTML net).result = .error (httpFailMsg (some e3))) := by
  refine ⟨?_, ?_, ?_, ?_⟩
  · intro status body
    simp only [attemptOutcome]
    split_ifs with h1 h2 h3 <;> simp [*]
  · exact attemptOutcome_of_good
  · intro net html h
    obtain ⟨k, hk⟩ := fetchHTMLGo_ok MAX_RETRIES none html h
    have hpost := attemptOutcome_ok_postcondition hk
    have := hpost.1
    simp only [MIN_BODY_LENGTH] at this
    omega
  · intro net e1 e2 e3 h1e h2e h3e
    show (fetchHTMLGo net (2 + 1) none).result = _
    rw [fetchHTMLGo_succ, show MAX_RETRIES - 2 = 1 from rfl, h1e]
    show (fetchHTMLGo net (1 + 1) (some e1)).result = _
    rw [fetchHTMLGo_succ, show MAX_RETRIES - 1 = 2 from rfl, h2e]
    show (fetchHTMLGo net (0 + 1) (some e2)).result = _
    rw [fetchHTMLGo_succ, show MAX_RETRIES - 0 = 3 from rfl, h3e]
    rfl

/-- Witness for C5: a run whose three tries all fail with transport errors
throws the aggregated message carrying the third error, and a good try
succeeds with the body. -/
theorem fetchHTML_failure_semantics_witness :
    (fetchHTML (fun k => NetResult.netError ("boom " ++ toString k))).result
        = .error (httpFailMsg (some "boom 3"))
      ∧ attemptOutcome (.resp 200 (List.replicate 2000 'z'))
        = .ok (List.replicate 2000 'z') := by
  constructor
  · exact fetchHTML_failure_semantics.2.2.2 _ "boom 1" "boom 2" "boom 3" rfl rfl rfl
  · exact fetchHTML_failure_semantics.2.1 200 (List.replicate 2000 'z') (by omega)
      (by rw [jsTrim_replicate_of_neg (by decide) 2000, List.length_replicate]; omega)
      (isBlocked_z_run (Nat.le_refl 2000))

/-- **C9.** Implicit postcondition: any body a successful `fetchHTML` run
returns is at least 2000 characters long and its lowercase form contains
none of the protection signatures — strictly stronger than the stated
"non-zero length", so the HTTP tier can never return a legitimately short
page. -/
theorem fetchHTML_success_strong_postcondition (net : Nat → NetResult) (html : List Char)
    (h : (fetchHTML net).result = .ok html) :
    MIN_BODY_LENGTH ≤ html.length
      ∧ ∀ sig ∈ BLOCK_SIGNATURES, includesSub (lowerStr html) sig = false := by
  obtain ⟨k, hk⟩ := fetchHTMLGo_ok MAX_RETRIES none html h
  exact attemptOutcome_ok_postcondition hk

/-- Witness for C9: a first-try success with a 2000-character clean body. -/
theorem fetchHTML_success_strong_postcondition_witness :
    MIN_BODY_LENGTH ≤ (List.replicate 2000 'z').length
      ∧ ∀ sig ∈ BLOCK_SIGNATURES,
          includesSub (lowerStr (List.replicate 2000 'z')) sig = false := by
  have hgood : attemptOutcome (.resp 200 (List.replicate 2000 'z'))
      = .ok (List.replicate 2000 'z') :=
    attemptOutcome_of_good 200 (List.replicate 2000 'z') (by omega)
      (by rw [jsTrim_replicate_of_neg (by decide) 2000, List.length_replicate]; omega)
      (isBlocked_z_run (Nat.le_refl 2000))
  have hrun : (fetchHTML (fun _ => NetResult.resp 200 (List.replicate 2000 'z'))).result
      = .ok (List.replicate 2000 'z') := by
    show (fetchHTMLGo (fun _ => NetResult.resp 200 (List.replicate 2000 'z'))
      (2 + 1) none).result = _
    rw [fetchHTMLGo_succ, hgood]
  exact fetchHTML_success_strong_postcondition _ _ hrun

/-! ## Claim theorems: FallbackChainWalker -/

/-- **C1.** On a parseable URL, a run of `AnnasProvider.scrape` in which
every fetch fails records, strictly in this order: the exact
caller-supplied URL (2 tries), the protocol-swapped variant (2 tries), the
trailing-slash variant (2 tries), each configured mirror origin in
configured order carrying the original pathname + search + hash verbatim
(1 try each), and finally the raw-HTTP last resort on the original URL;
only then is `success = false` returned. Moreover, for any network
behaviour, every recorded attempt before the last is a failure — the walk
stops at the first success of any state. -/
theorem annas_fallback_chain (net : Nat → Except String String) (errs : Nat → String)
    (url : String) (u : ParsedUrl) (hurl : ¬ url = "")
    (hfail : ∀ k, net k = .error (errs k)) :
    (∃ o, scrape net url (some u) = .ok (.outcome o)
      ∧ o.attempts.map FetchAttempt.attemptUrl =
          [url, url, swappedUrl u, swappedUrl u, slashVariantUrl u, slashVariantUrl u]
            ++ MIRROR_ORIGINS.map (fun m => m ++ u.pathname ++ u.search ++ u.hash)
            ++ [url]
      ∧ (∀ a ∈ o.attempts, a.success = false)
      ∧ o.success = false
      ∧ o.attempts.length = 10)
    ∧ (∀ (n2 : Nat → Except String String) (p : Option ParsedUrl) (o : AnnasOutcome),
        scrape n2 url p = .ok (.outcome o) →
        ∀ a ∈ o.attempts.dropLast, a.success = false) := by
  constructor
  · refine ⟨_, scrape_allfail_eval hfail url u hurl, ?_, ?_, rfl, rfl⟩
    · simp [MIRROR_ORIGINS, normalizeUrlCandidate]
    · simp
  · intro n2 p o h
    exact scrape_dropLast_fail n2 url p o h

/-- Witness for C1: a concrete all-failing run on
`https://annas-archive.org/md5/xyz`. -/
theorem annas_fallback_chain_witness :
    ∃ o, scrape (fun _ => .error "boom") "https://annas-archive.org/md5/xyz"
        (some ⟨"https:", "annas-archive.org", "/md5/xyz", "", "",
          "https://annas-archive.org"⟩)
      = .ok (.outcome o) ∧ o.success = false ∧ o.attempts.length = 10 := by
  obtain ⟨o, h1, _, _, h4, h5⟩ := (annas_fallback_chain (fun _ => .error "boom")
    (fun _ => "boom") "https://annas-archive.org/md5/xyz"
    ⟨"https:", "annas-archive.org", "/md5/xyz", "", "", "https://annas-archive.org"⟩
    (by decide) (fun k => rfl)).1
  exact ⟨o, h1, h4, h5⟩

/-- Counterexample to C4 as stated: on a missing (empty) URL the walker
does not raise — it resolves normally with the invalid-URL response
object. -/
theorem annas_missing_url_counterexample :
    scrape (fun _ => .error "x") "" none = .ok (.invalidUrl "") := rfl

/-- **C4 (amended).** `AnnasProvider.scrape` never raises at all: a missing
(empty) URL yields an immediate structured invalid-URL response rather
than a thrown error (a non-empty unparsable URL is not rejected but
attempted as-is), and ordinary fetch failure of all states yields a
structured outcome with `success = false`, the last human-readable error
message, and a non-empty ordered attempt trail. -/
theorem annas_never_throws (net : Nat → Except String String) (url : String)
    (parsed : Option ParsedUrl) :
    (scrape net url parsed).isOk = true
    ∧ (url = "" → scrape net url parsed = .ok (.invalidUrl url))
    ∧ (∀ (errs : Nat → String) u, parsed = some u → ¬ url = "" →
        (∀ k, net k = .error (errs k)) →
        ∃ o, scrape net url parsed = .ok (.outcome o)
          ∧ o.success = false ∧ o.error = some (errs 9)
          ∧ o.attempts.length = 10) := by
  refine ⟨?_, ?_, ?_⟩
  · unfold scrape
    split <;> rfl
  · intro h
    subst h
    rfl
  · intro errs u hp hurl hfail
    subst hp
    exact ⟨_, scrape_allfail_eval hfail url u hurl, rfl, rfl, rfl⟩

/-- Witness for C4: the empty URL resolves to the invalid-URL response and
an all-failing parseable run resolves to a `success = false` outcome. -/
theorem annas_never_throws_witness :
    scrape (fun _ => .error "x") "" none = .ok (.invalidUrl "")
      ∧ ∃ o, scrape (fun _ => .error "x") "https://annas-archive.org/md5/xyz"
          (some ⟨"https:", "annas-archive.org", "/md5/xyz", "", "",
            "https://annas-archive.org"⟩)
        = .ok (.outcome o) ∧ o.success = false ∧ o.error = some "x"
        ∧ o.attempts.length = 10 := by
  constructor
  · exact (annas_never_throws (fun _ => .error "x") "" none).2.1 rfl
  · exact (annas_never_throws (fun _ => .error "x") "https://annas-archive.org/md5/xyz"
      (some ⟨"https:", "annas-archive.org", "/md5/xyz", "", "",
        "https://annas-archive.org"⟩)).2.2 (fun _ => "x") _ rfl (by decide) (fun k => rfl)

/-! ## Claim theorems: RetryPolicy -/

/-- **C6.** The retry logic never exceeds the configured attempt counts —
at most `MAX_RETRIES = 3` network tries for the raw-HTTP tier, at most 2
fetch calls for each of the Original / ProtocolSwap / TrailingSlashVariant
states, exactly 1 per mirror origin or last-resort call (`tryFetch`), at
most 10 per whole walk — and the linear backoff (`500 * attempt` for the
HTTP tier, `400 * i` for the walker) is strictly increasing in the attempt
index, so the recorded delay sequences are monotone. -/
theorem retry_policy_bounds :
    (∀ i j, i ≤ j → httpBackoff i ≤ httpBackoff j ∧ annasBackoff i ≤ annasBackoff j)
    ∧ (∀ i j, i < j → httpBackoff i < httpBackoff j ∧ annasBackoff i < annasBackoff j)
    ∧ (∀ net, (fetchHTML net).callCount ≤ MAX_RETRIES)
    ∧ (∀ net, List.Chain' (· < ·) (fetchHTML net).delays)
    ∧ (∀ net url s, (stageOriginal net url s).calls ≤ s.calls + 2)
    ∧ (∀ net p s, (stageProtocolSwap net p s).calls ≤ s.calls + 2)
    ∧ (∀ net p s, (stageSlashVariant net p s).calls ≤ s.calls + 2)
    ∧ (∀ net u t s, (tryFetch net u t s).1.calls = s.calls + 1)
    ∧ (∀ net url p o, scrape net url p = .ok (.outcome o) →
        o.calls ≤ 10 ∧ List.Chain' (· ≤ ·) o.delays) := by
  refine ⟨?_, ?_, ?_, ?_, stageOriginal_calls, stageProtocolSwap_calls,
    stageSlashVariant_calls, tryFetch_calls, ?_⟩
  · intro i j hij
    constructor
    · simp only [httpBackoff]; omega
    · simp only [annasBackoff]; omega
  · intro i j hij
    constructor
    · simp only [httpBackoff]; omega
    · simp only [annasBackoff]; omega
  · intro net
    exact fetchHTMLGo_callCount_le MAX_RETRIES none
  · intro net
    exact (fetchHTMLGo_delays MAX_RETRIES (Nat.le_refl _) none).1
  · intro net url p o h
    obtain ⟨hc, hd⟩ := scrape_calls_delays net url p o h
    refine ⟨hc, ?_⟩
    rcases hd with h0 | h1
    · rw [h0]; exact List.chain'_nil
    · rw [h1]; exact List.chain'_singleton _

/-- Witness for C6: concrete backoff comparisons, a concrete raw-HTTP run,
and a concrete completed walk within the call budget. -/
theorem retry_policy_bounds_witness :
    httpBackoff 1 ≤ httpBackoff 2 ∧ annasBackoff 1 < annasBackoff 2
      ∧ (fetchHTML (fun _ => NetResult.netError "x")).callCount ≤ MAX_RETRIES
      ∧ ((10 : Nat) ≤ 10 ∧ List.Chain' (· ≤ ·) [annasBackoff 1]) := by
  refine ⟨(retry_policy_bounds.1 1 2 (by omega)).1,
    (retry_policy_bounds.2.1 1 2 (by omega)).2,
    retry_policy_bounds.2.2.1 (fun _ => NetResult.netError "x"), ?_⟩
  exact retry_policy_bounds.2.2.2.2.2.2.2.2 (fun _ => .error "x")
    "https://annas-archive.org/md5/xyz"
    (some ⟨"https:", "annas-archive.org", "/md5/xyz", "", "",
      "https://annas-archive.org"⟩) _
    (scrape_allfail_eval (fun k => rfl) "https://annas-archive.org/md5/xyz"
      ⟨"https:", "annas-archive.org", "/md5/xyz", "", "", "https://annas-archive.org"⟩
      (by decide))

/-! ## Claim theorems: FetchOrchestrator tiering -/

/-- **C3.** The orchestrator never interleaves tiers: in every run the
attempt trail is some render attempts followed only by HTTP attempts; the
run stops at the first success (every non-final attempt is a failure); and
when every render strategy fails while the HTTP fetch succeeds, the run
returns the HTTP markup as a success and the trail is exactly the
renderer's full budget of failed attempts followed by one successful HTTP
attempt. -/
theorem orchestrator_tiering (env : PwEnv) (net : RenderNet) (es ef ec hh : String) :
    rendersBeforeHttp (fetchWithPlaywrightChain env net).2 = true
    ∧ (∀ a ∈ (fetchWithPlaywrightChain env net).2.dropLast, a.success = false)
    ∧ (env.disablePlaywright = false →
        net.serverless = .error es → net.fullPw = .error ef →
        net.corePw = .error ec → net.http = .ok hh →
        fetchWithPlaywrightChain env net
          = (.ok hh, List.replicate (renderBudget env) ⟨.render, false⟩
              ++ [⟨.http, true⟩])) := by
  rcases env with ⟨iv, dp, ca⟩
  rcases net with ⟨rs, rf, rc, rh⟩
  cases dp <;> cases iv <;> cases ca <;>
    cases rs <;> cases rf <;> cases rc <;> cases rh <;>
    simp [fetchWithPlaywrightChain, afterServerless, httpFinal,
      rendersBeforeHttp, renderBudget]

/-- Witness for C3: on Vercel with the core fallback usable, three failed
render attempts then one successful HTTP attempt. -/
theorem orchestrator_tiering_witness :
    fetchWithPlaywrightChain ⟨true, false, true⟩
        ⟨.error "a", .error "b", .error "c", .ok "HTML"⟩
      = (.ok "HTML", List.replicate 3 ⟨.render, false⟩ ++ [⟨.http, true⟩]) :=
  (orchestrator_tiering ⟨true, false, true⟩
    ⟨.error "a", .error "b", .error "c", .ok "HTML"⟩
    "a" "b" "c" "HTML").2.2 rfl rfl rfl rfl rfl

/-! ## Claim theorems: Renderer lifecycle -/

/-- **C7 (divergence witness).** When `page.goto` throws (e.g. a navigation
timeout) after the context and page were opened, the run exits through the
catch — here with a successful HTTP fallback — without ever closing the
page or the context, because the `page.close()`/`context.close()` pair runs
only after `page.content()` succeeds and there is no `finally`; the claimed
"closed on every exit path" fails on this path. The shared browser, by
contrast, is indeed never closed on any input. -/
theorem renderer_leaks_page_on_goto_failure :
    (renderRun ⟨.ok (), .error "net::ERR_TIMED_OUT", .ok "x", .ok "H"⟩).2
        = [.contextOpen, .pageOpen]
    ∧ PwEvent.pageClose
        ∉ (renderRun ⟨.ok (), .error "net::ERR_TIMED_OUT", .ok "x", .ok "H"⟩).2
    ∧ PwEvent.contextClose
        ∉ (renderRun ⟨.ok (), .error "net::ERR_TIMED_OUT", .ok "x", .ok "H"⟩).2
    ∧ (renderRun ⟨.ok (), .error "net::ERR_TIMED_OUT", .ok "x", .ok "H"⟩).1 = .ok "H"
    ∧ ∀ st, PwEvent.browserClose ∉ (renderRun st).2 := by
  refine ⟨rfl, by decide, by decide, rfl, ?_⟩
  intro st
  rcases st with ⟨bi, gn, pc, hf⟩
  cases bi <;> cases gn <;> cases pc <;> cases hf <;>
    simp [renderRun, pwCatch]

/-! ## Claim theorems: cookie normalization -/

/-- **C8.** Cookie-entry defaults during injection: a missing `domain`
yields the target URL's hostname (to which, having no leading dot, the
strip is the identity), a missing `path` yields `"/"`, and a missing
`sameSite` yields the lax policy `"Lax"`. -/
theorem cookie_normalization_defaults (hostname : String) (c : RawCookie) :
    (c.domain = none → (normalizeCookie hostname c).domain = hostname)
    ∧ (c.path = none → (normalizeCookie hostname c).path = "/")
    ∧ (c.sameSite = none → (normalizeCookie hostname c).sameSite = "Lax") := by
  refine ⟨?_, ?_, ?_⟩ <;> intro h <;> simp [normalizeCookie, h]

/-- Witness for C8: a name/value-only cookie entry against
`annas-archive.org`. -/
theorem cookie_normalization_defaults_witness :
    (normalizeCookie "annas-archive.org"
        ⟨"sid", "abc", none, none, none, false, false, none⟩).domain
      = "annas-archive.org"
    ∧ (normalizeCookie "annas-archive.org"
        ⟨"sid", "abc", none, none, none, false, false, none⟩).path = "/"
    ∧ (normalizeCookie "annas-archive.org"
        ⟨"sid", "abc", none, none, none, false, false, none⟩).sameSite = "Lax" :=
  ⟨(cookie_normalization_defaults "annas-archive.org"
      ⟨"sid", "abc", none, none, none, false, false, none⟩).1 rfl,
   (cookie_normalization_defaults "annas-archive.org"
      ⟨"sid", "abc", none, none, none, false, false, none⟩).2.1 rfl,
   (cookie_normalization_defaults "annas-archive.org"
      ⟨"sid", "abc", none, none, none, false, false, none⟩).2.2 rfl⟩

/-! ## Claim theorems: parseAnnasSearch dedupe -/

/-- **C10.** The dedupe/filter tail of `parseAnnasSearch`: `rawResults` is
an order-preserving sublist of the input with pairwise-distinct dedupe keys
(hence pairwise-distinct `resolvedHref` whenever all `resolvedHref`s are
non-empty, which the upstream resolution guarantees), covering every input
key, and each kept record is the input's first occurrence of its key;
`md5Results` is exactly the order-preserving filter of the deduped results
whose `href` or `resolvedHref` contains `"/md5/"`, hence a sublist of
`rawResults`. -/
theorem parseAnnasSearch_dedupe (input : List AnnasRawAnchor) :
    ((parseAnnasSearchTail input).1.Sublist input)
    ∧ ((parseAnnasSearchTail input).1.map anchorKey).Nodup
    ∧ ((∀ r ∈ input, r.resolvedHref ≠ "") →
        ((parseAnnasSearchTail input).1.map AnnasRawAnchor.resolvedHref).Nodup)
    ∧ (∀ r ∈ input, anchorKey r ∈ (parseAnnasSearchTail input).1.map anchorKey)
    ∧ (∀ b ∈ (parseAnnasSearchTail input).1, ∃ l1 l2, input = l1 ++ b :: l2
        ∧ ∀ a ∈ l1, anchorKey a ≠ anchorKey b)
    ∧ (parseAnnasSearchTail input).2 = (parseAnnasSearchTail input).1.filter md5Pred
    ∧ (parseAnnasSearchTail input).2.Sublist (parseAnnasSearchTail input).1 := by
  refine ⟨dedupeByKey_sublist input [], (dedupeByKey_keys input []).1, ?_, ?_, ?_, rfl,
    List.filter_sublist _⟩
  · intro hne
    have hmapeq : (parseAnnasSearchTail input).1.map anchorKey
        = (parseAnnasSearchTail input).1.map AnnasRawAnchor.resolvedHref := by
      refine List.map_congr_left ?_
      intro r hr
      have hrin : r ∈ input := (dedupeByKey_sublist input []).mem hr
      unfold anchorKey
      rw [if_neg (hne r hrin)]
    rw [← hmapeq]
    exact (dedupeByKey_keys input []).1
  · intro r hr
    exact dedupeByKey_covers input [] r hr (by intro h; cases h)
  · intro b hb
    obtain ⟨l1, l2, heq, hall⟩ := dedupeByKey_firstOcc input [] b hb
    refine ⟨l1, l2, heq, ?_⟩
    intro a ha
    rcases hall a ha with hin | hne
    · cases hin
    · exact hne

/-- Witness for C10: a concrete anchor list with a duplicate and a
non-md5 link. -/
theorem parseAnnasSearch_dedupe_witness :
    ((parseAnnasSearchTail
        [⟨"/md5/a", "https://annas-archive.li/md5/a"⟩,
         ⟨"/md5/a", "https://annas-archive.li/md5/a"⟩,
         ⟨"/about", "https://annas-archive.li/about"⟩]).1.map
      AnnasRawAnchor.resolvedHref).Nodup :=
  (parseAnnasSearch_dedupe
    [⟨"/md5/a", "https://annas-archive.li/md5/a"⟩,
     ⟨"/md5/a", "https://annas-archive.li/md5/a"⟩,
     ⟨"/about", "https://annas-archive.li/about"⟩]).2.2.1 (by decide)

end Scraper
